import Mathlib

/-!
Verification development for the py-leap ABI codec and transaction
submission pipeline (`src/leap/cleos.py`).

The embedding below mirrors the source:
* `pack_abi_data` embeds `CLEOS._pack_abi_data` (cleos.py, lines 93-155);
* `load_abi` / `get_loaded_abi` embed the ABI registry (lines 510-521);
* the synchronous submission loop embeds `CLEOS._create_and_push_tx`
  (lines 1039-1113) and the asynchronous one `CLEOS._a_create_and_push_tx`
  (lines 157-227).

The `protocol` module (DataStream pack functions, `sign_tx`,
`get_tapos_info`, `get_expiration`) is not part of the sources; those
pieces are modelled from the spec and are marked as such in their doc
comments.  Machine integers are Nat/Int with explicit reductions mod 2^w;
byte buffers are `List Nat` of values below 256.
-/

namespace PyLeap

/-- Python/JSON-shaped values as they occur in action data: strings,
integers, booleans, None, lists, dicts, and raw byte blobs. -/
inductive JValue where
  | jstr (s : String)
  | jint (n : Int)
  | jbool (b : Bool)
  | jnull
  | jarr (xs : List JValue)
  | jobj (kvs : List (String × JValue))
  | jbytes (bs : List Nat)
deriving Repr

/-- Model of Python `str(value)` as used by `_pack_abi_data` for fields of
type name/asset/symbol.  Faithful on strings, integers, booleans and None
(the cases exercised by those fields); container values are given a fixed
rendering, unused by any claim. -/
def pyStr : JValue → String
  | .jstr s => s
  | .jint n => toString n
  | .jbool true => "True"
  | .jbool false => "False"
  | .jnull => "None"
  | .jarr _ => "<list>"
  | .jobj _ => "<dict>"
  | .jbytes _ => "<bytes>"

/-- Errors raised while packing.  Each constructor corresponds to a
concrete Python exception site of `_pack_abi_data` / `get_loaded_abi`:
`abiNotLoaded` is the `ValueError` of `get_loaded_abi`;
`assertStructCount n` is `assert len(struct) == 1` failing with `n`
matching structs; `typeErrorData` is the explicit `TypeError` for a
non-list data container; `stopIteration` is `next(key_iter)` running out
of struct fields; `assertEmptyType` is `assert typ` on a falsy (empty)
type string; `attributeError fn` is `getattr(ds, fn)` failing;
`typeErrorCall` is a pack function called with the wrong
number/shape of arguments; `valueError` is a pack function rejecting its
value (out of range, invalid name/asset/symbol). -/
inductive PackErr where
  | abiNotLoaded (account : String)
  | assertStructCount (n : Nat)
  | typeErrorData
  | stopIteration
  | assertEmptyType
  | attributeError (fn : String)
  | typeErrorCall
  | valueError (msg : String)
deriving Repr, DecidableEq

/-- Little-endian bytes of `n` over `w` bytes (values reduced mod 2^(8w)). -/
def leBytes : Nat → Nat → List Nat
  | 0, _ => []
  | w+1, n => (n % 256) :: leBytes w (n / 256)

/-- Modelled from the spec: LEB128-style variable-length unsigned integer,
groups of 7 bits, high bit = continuation, little-endian group order
(spec 4.2; the Primitive Encoder lives in the protocol module, not in
src/). -/
def packVaruintAux : Nat → Nat → List Nat
  | 0, n => [n % 128]
  | fuel + 1, n =>
    if n < 128 then [n]
    else (n % 128 + 128) :: packVaruintAux fuel (n / 128)

/-- See `packVaruintAux`; the fuel `n` always suffices since `n / 128`
shrinks below any positive fuel. -/
def packVaruint (n : Nat) : List Nat := packVaruintAux n n

/-- Modelled from the spec: UTF-8 encoding of one character (spec 4.2
length-prefixed strings; protocol module not in src/). -/
def utf8Char (c : Char) : List Nat :=
  let n := c.toNat
  if n < 128 then [n]
  else if n < 2048 then [192 + n / 64, 128 + n % 64]
  else if n < 65536 then [224 + n / 4096, 128 + (n / 64) % 64, 128 + n % 64]
  else [240 + n / 262144, 128 + (n / 4096) % 64, 128 + (n / 64) % 64, 128 + n % 64]

/-- UTF-8 bytes of a string. -/
def strBytes (s : String) : List Nat := (s.data.map utf8Char).flatten

/-- Modelled from the spec: value of one character of a packed account
name, alphabet `.12345a-z` (spec 3, Name data model; the Name Codec lives
in the protocol module, not in src/). -/
def charToSymbol (c : Char) : Option Nat :=
  if c = '.' then some 0
  else if '1' ≤ c ∧ c ≤ '5' then some (c.toNat - '1'.toNat + 1)
  else if 'a' ≤ c ∧ c ≤ 'z' then some (c.toNat - 'a'.toNat + 6)
  else none

/-- Modelled from the spec: 5-bit-per-character packing of an account name
into an unsigned 64-bit value; the 13th character contributes only its low
4 bits; more than 13 characters or an invalid character is rejected
(spec 3 / 4.1). -/
def nameValueAux : List Char → Nat → Nat → Option Nat
  | [], _, acc => some acc
  | c :: cs, i, acc =>
    match charToSymbol c with
    | none => none
    | some v =>
      if i < 12 then nameValueAux cs (i+1) (acc + (v % 32) * 2 ^ (64 - 5 * (i+1)))
      else if i = 12 then nameValueAux cs (i+1) (acc + v % 16)
      else none

/-- Packed u64 of an account name string, when valid. -/
def nameValue (s : String) : Option Nat := nameValueAux s.data 0 0

/-- Modelled from the spec: a symbol code is 1-7 uppercase ASCII letters
(spec 3, Symbol data model). -/
def validSymbolCode (code : String) : Bool :=
  decide (1 ≤ code.length ∧ code.length ≤ 7) &&
    code.data.all (fun c => decide ('A' ≤ c ∧ c ≤ 'Z'))

/-- Modelled from the spec: symbol wire form, one precision byte followed
by the code right-padded with zero bytes to 8 bytes total (spec 3). -/
def symbolBytes (precision : Nat) (code : String) : List Nat :=
  (precision % 256) :: (code.data.map Char.toNat ++ List.replicate (7 - code.length) 0)

/-- Modelled from the spec: parse the canonical asset string form
`"<amount/10^precision> <code>"` into (amount, precision, code)
(spec 3, Asset data model; protocol module not in src/). -/
def parseAsset (s : String) : Option (Int × Nat × String) :=
  match s.splitOn " " with
  | [num, code] =>
    (match num.splitOn "." with
     | [w] => (w.toInt?).map (fun n => (n, 0, code))
     | [w, f] =>
       (match w.toInt?, f.toNat? with
        | some wi, some fn =>
          let p := f.length
          let mag := wi.natAbs * 10 ^ p + fn
          let amt : Int := if w.startsWith "-" then -(mag : Int) else (mag : Int)
          some (amt, p, code)
        | _, _ => none)
     | _ => none)
  | _ => none

/-- Modelled from the spec: parse the symbol string form
`"<precision>,<code>"`. -/
def parseSymbol (s : String) : Option (Nat × String) :=
  match s.splitOn "," with
  | [p, code] => (p.toNat?).map (fun n => (n, code))
  | _ => none

/-- Two's-complement little-endian bytes of a signed value over `w` bytes. -/
def leBytesInt (w : Nat) (n : Int) : List Nat :=
  leBytes w ((n % ((2:Int) ^ (8 * w))).toNat)

/-- Modelled from the spec: the set of `pack_*` methods the DataStream
object exposes (spec 4.2 / 4.3; the protocol module is not in src/).
Keyed by the `fn_name` string that `_pack_abi_data` builds: the method
looked up by `getattr(ds, 'pack_' + fn_name)`.  Python method names are
identifiers, so no entry contains characters such as `$`. -/
inductive DSMethod where
  | array | optional | bytes | str | boolean | name | asset | symbol
  | uint8 | uint16 | uint32 | uint64
  | int8 | int16 | int32 | int64
  | varuint32 | abi
deriving Repr, DecidableEq

/-- Method table of the DataStream model, keyed by `fn_name`. -/
def dsMethods : List (String × DSMethod) :=
  [("array", .array), ("optional", .optional), ("bytes", .bytes),
   ("string", .str), ("bool", .boolean), ("name", .name),
   ("asset", .asset), ("symbol", .symbol),
   ("uint8", .uint8), ("uint16", .uint16), ("uint32", .uint32),
   ("uint64", .uint64),
   ("int8", .int8), ("int16", .int16), ("int32", .int32), ("int64", .int64),
   ("varuint32", .varuint32), ("abi", .abi)]

/-- Model of `getattr(ds, 'pack_' + fn_name)`: `none` is an
`AttributeError`. -/
def dsResolve (fn : String) : Option DSMethod := dsMethods.lookup fn

/-- Modelled from the spec: unsigned fixed-width pack; value must be an
integer (Python bools are ints) within range, little-endian bytes
(spec 4.2). -/
def packUintW (w : Nat) (v : JValue) : Except PackErr (List Nat) :=
  match v with
  | .jint n =>
    if 0 ≤ n ∧ n < (2:Int) ^ (8 * w) then .ok (leBytes w n.toNat)
    else .error (.valueError "uint out of range")
  | .jbool b => .ok (leBytes w (cond b 1 0))
  | _ => .error .typeErrorCall

/-- Modelled from the spec: signed fixed-width pack, two's complement,
little-endian (spec 4.2). -/
def packIntW (w : Nat) (v : JValue) : Except PackErr (List Nat) :=
  match v with
  | .jint n =>
    if -((2:Int) ^ (8 * w - 1)) ≤ n ∧ n < (2:Int) ^ (8 * w - 1) then
      .ok (leBytesInt w n)
    else .error (.valueError "int out of range")
  | .jbool b => .ok (leBytes w (cond b 1 0))
  | _ => .error .typeErrorCall

mutual

/-- Modelled from the spec: `pack_abi` serializes a structured ABI value
using the nested ABI binary schema and is consumed only through the
`setabi` branch of `_pack_abi_data`.  The exact nested schema belongs to
the protocol module (not in src/) and is not spelled out by the spec, so
it is modelled as a canonical tagged serialization of the value; no claim
inspects these bytes. -/
def jvalueBytes : JValue → List Nat
  | .jnull => [0]
  | .jbool b => [1, cond b 1 0]
  | .jint n => 2 :: leBytesInt 8 n
  | .jstr s => 3 :: (packVaruint (strBytes s).length ++ strBytes s)
  | .jbytes bs => 4 :: (packVaruint bs.length ++ bs)
  | .jarr xs => 5 :: (packVaruint xs.length ++ jlistBytes xs)
  | .jobj kvs => 6 :: (packVaruint kvs.length ++ jkvsBytes kvs)

/-- Serialization of a list of values (helper for `jvalueBytes`). -/
def jlistBytes : List JValue → List Nat
  | [] => []
  | x :: xs => jvalueBytes x ++ jlistBytes xs

/-- Serialization of key/value pairs (helper for `jvalueBytes`). -/
def jkvsBytes : List (String × JValue) → List Nat
  | [] => []
  | (k, v) :: kvs => strBytes k ++ jvalueBytes v ++ jkvsBytes kvs

end

/-- Modelled from the spec: behaviour of each scalar DataStream pack
method on a single value argument (spec 3 / 4.2 / 4.3; protocol module
not in src/).  `array` and `optional` take two arguments and are handled
by `dsCall`; called with one argument they are a Python arity
`TypeError`. -/
def packPrim : DSMethod → JValue → Except PackErr (List Nat)
  | .uint8, v => packUintW 1 v
  | .uint16, v => packUintW 2 v
  | .uint32, v => packUintW 4 v
  | .uint64, v => packUintW 8 v
  | .int8, v => packIntW 1 v
  | .int16, v => packIntW 2 v
  | .int32, v => packIntW 4 v
  | .int64, v => packIntW 8 v
  | .varuint32, .jint n =>
    if 0 ≤ n ∧ n < (2:Int) ^ 32 then .ok (packVaruint n.toNat)
    else .error (.valueError "varuint32 out of range")
  | .varuint32, _ => .error .typeErrorCall
  | .boolean, .jbool b => .ok [cond b 1 0]
  | .boolean, .jint n => .ok [if n = 0 then 0 else 1]
  | .boolean, _ => .error .typeErrorCall
  | .str, .jstr s => .ok (packVaruint (strBytes s).length ++ strBytes s)
  | .str, _ => .error .typeErrorCall
  | .bytes, .jbytes bs => .ok (packVaruint bs.length ++ bs)
  | .bytes, .jstr s => .ok (packVaruint (strBytes s).length ++ strBytes s)
  | .bytes, _ => .error .typeErrorCall
  | .name, .jstr s =>
    match nameValue s with
    | some n => .ok (leBytes 8 n)
    | none => .error (.valueError "invalid name")
  | .name, _ => .error .typeErrorCall
  | .asset, .jstr s =>
    match parseAsset s with
    | some (amt, p, code) =>
      if validSymbolCode code ∧ p ≤ 18 ∧
          -((2:Int) ^ 63) ≤ amt ∧ amt < (2:Int) ^ 63 then
        .ok (leBytesInt 8 amt ++ symbolBytes p code)
      else .error (.valueError "invalid asset")
    | none => .error (.valueError "invalid asset")
  | .asset, _ => .error .typeErrorCall
  | .symbol, .jstr s =>
    match parseSymbol s with
    | some (p, code) =>
      if validSymbolCode code ∧ p ≤ 18 then .ok (symbolBytes p code)
      else .error (.valueError "invalid symbol")
    | none => .error (.valueError "invalid symbol")
  | .symbol, _ => .error .typeErrorCall
  | .abi, v => .ok (jvalueBytes v)
  | .array, _ => .error .typeErrorCall
  | .optional, _ => .error .typeErrorCall

/-- Modelled from the spec: applying a resolved DataStream pack method to
the positional argument list `_pack_abi_data` built for it.  `array`
packs a varint element count and then each element as the bare element
type; `optional` packs a presence byte and then the value (spec 4.3
dispatch table). -/
def dsCall : DSMethod → List JValue → Except PackErr (List Nat)
  | .array, [.jstr t, .jarr xs] =>
    (match dsResolve t with
     | none => .error (.attributeError ("pack_" ++ t))
     | some m =>
       match xs.mapM (packPrim m) with
       | .error e => .error e
       | .ok bss => .ok (packVaruint xs.length ++ bss.flatten))
  | .array, _ => .error .typeErrorCall
  | .optional, [.jstr _, .jnull] => .ok [0]
  | .optional, [.jstr t, v] =>
    (match dsResolve t with
     | none => .error (.attributeError ("pack_" ++ t))
     | some m =>
       match packPrim m v with
       | .error e => .error e
       | .ok bs => .ok (1 :: bs))
  | .optional, _ => .error .typeErrorCall
  | m, [v] => packPrim m v
  | _, _ => .error .typeErrorCall

/-- One ABI struct field: the dicts of `abi['structs'][i]['fields']`
(source keys `name` and `type`). -/
structure AbiField where
  name : String
  type : String
deriving Repr, DecidableEq

/-- One ABI struct: a dict of `abi['structs']`. -/
structure AbiStruct where
  name : String
  fields : List AbiField
deriving Repr, DecidableEq

/-- A loaded ABI; only `structs` is consumed by the codec (spec 6). -/
structure Abi where
  structs : List AbiStruct
deriving Repr, DecidableEq

/-- The process-wide ABI registry `self._loaded_abis`, a dict keyed by
account name (cleos.py line 62). -/
abbrev Registry := String → Option Abi

/-- The empty registry (a fresh `CLEOS` instance). -/
def emptyRegistry : Registry := fun _ => none

/-- Embeds `CLEOS.load_abi` (cleos.py lines 510-511):
`self._loaded_abis[account] = abi`, a dict store that overwrites. -/
def load_abi (r : Registry) (account : String) (abi : Abi) : Registry :=
  fun a => if a = account then some abi else r a

/-- Embeds `CLEOS.get_loaded_abi` (cleos.py lines 517-521): raises
`ValueError` (modelled as `PackErr.abiNotLoaded`) when the account has no
loaded ABI, otherwise returns the dict entry. -/
def get_loaded_abi (r : Registry) (account : String) : Except PackErr Abi :=
  match r account with
  | none => .error (.abiNotLoaded account)
  | some abi => .ok abi

/-- Insertion into a Python dict: first occurrence fixes key order, a later
assignment to the same key overwrites the value in place. -/
def dictInsert (kvs : List (String × String)) (k v : String) :
    List (String × String) :=
  if kvs.any (fun kv => kv.1 == k) then
    kvs.map (fun kv => if kv.1 == k then (k, v) else kv)
  else kvs ++ [(k, v)]

/-- Embeds the dict comprehension
`struct_fields = {f['name']: f['type'] for f in struct['fields']}`
(cleos.py line 108). -/
def structFieldsDict (fs : List AbiField) : List (String × String) :=
  fs.foldl (fun acc f => dictInsert acc f.name f.type) []

/-- An authorization dict of an action. -/
structure Authorization where
  actor : String
  permission : String
deriving Repr, DecidableEq

/-- An action dict as `_pack_abi_data` and the submission loops consume
it: `account`, `name`, positional `data`, `authorization`. -/
structure PyAction where
  account : String
  name : String
  data : JValue
  authorization : List Authorization
deriving Repr

/-- Python slice test `s[-t.length:] == t` over the character list (the
source checks `typ[-2:] == '[]'`, `typ[-1] == '?'`, `typ[-1] == '$'`; on
strings shorter than the slice the comparison is against the whole
string, which the list form reproduces through truncated subtraction). -/
def strEndsWith (s t : String) : Bool :=
  s.data.drop (s.data.length - t.data.length) == t.data

/-- Python slice `s[:-n]` over the character list. -/
def strDropRight (s : String) (n : Nat) : String :=
  String.mk (s.data.take (s.data.length - n))

/-- Embeds the per-field branch selection of `_pack_abi_data`
(cleos.py lines 125-149), in source order: `[]` suffix, then `?` suffix,
then `$` suffix, then the eosio/setabi/abi special case, then
name/asset/symbol stringification, else the bare type.  Returns the
`fn_name` used for the `getattr` lookup and the `pack_params` list.
Note the `$` branch of the source sets `pack_params = [typ[:-1], value]`
but leaves `fn_name = typ` (the suffixed string) unchanged. -/
def branchFor (account name fname typ : String) (value : JValue) :
    String × List JValue :=
  if strEndsWith typ "[]" then ("array", [.jstr (strDropRight typ 2), value])
  else if strEndsWith typ "?" then
    ("optional", [.jstr (strDropRight typ 1), value])
  else if strEndsWith typ "$" then (typ, [.jstr (strDropRight typ 1), value])
  else if account == "eosio" && name == "setabi" && fname == "abi" then
    ("bytes", [.jbytes (jvalueBytes value)])
  else if typ == "name" || typ == "asset" || typ == "symbol" then
    (typ, [.jstr (pyStr value)])
  else (typ, [value])

/-- Embeds the packing loop of `_pack_abi_data` (cleos.py lines 117-152):
`for _ in range(len(data))` draws one struct-field key and one data value
per iteration; exhausting the keys first is a `StopIteration`; an empty
type string fails `assert typ`; the pack function is resolved by
`getattr` and applied, its bytes accumulating in the stream buffer. -/
def packLoop (account name : String) :
    List (String × String) → List JValue → List Nat →
    Except PackErr (List Nat)
  | _, [], buf => .ok buf
  | [], _ :: _, _ => .error .stopIteration
  | (fname, typ) :: keys, v :: vs, buf =>
    if typ = "" then .error .assertEmptyType
    else
      let fa := branchFor account name fname typ v
      match dsResolve fa.1 with
      | none => .error (.attributeError ("pack_" ++ fa.1))
      | some m =>
        match dsCall m fa.2 with
        | .error e => .error e
        | .ok bs => packLoop account name keys vs (buf ++ bs)

/-- Lowercase hex digit of a value below 16. -/
def hexDigit (n : Nat) : Char :=
  if n < 10 then Char.ofNat (48 + n) else Char.ofNat (87 + n)

/-- Embeds `binascii.hexlify(...).decode('utf-8')`: two lowercase hex
digits per byte. -/
def hexOfBytes (bs : List Nat) : String :=
  String.mk ((bs.map (fun b => [hexDigit (b / 16 % 16), hexDigit (b % 16)])).flatten)

/-- The continuation of `_pack_abi_data` once the unique struct is
resolved (cleos.py lines 107-155): build the field dict, require the data
container to be a list (`TypeError` otherwise), run the packing loop, and
hex-encode the accumulated stream. -/
def packWithStruct (account name : String) (st : AbiStruct) (data : JValue) :
    Except PackErr String :=
  match data with
  | .jarr vals =>
    (match packLoop account name (structFieldsDict st.fields) vals [] with
     | .error e => .error e
     | .ok bs => .ok (hexOfBytes bs))
  | _ => .error .typeErrorData

/-- Embeds `CLEOS._pack_abi_data` (cleos.py lines 93-155): look up the
loaded ABI, filter the structs by the action name, require exactly one
match (`assert len(struct) == 1`), then run `packWithStruct` on it. -/
def pack_abi_data (abis : Registry) (action : PyAction) :
    Except PackErr String :=
  match get_loaded_abi abis action.account with
  | .error e => .error e
  | .ok abi =>
    match abi.structs.filter (fun s => s.name == action.name) with
    | [st] => packWithStruct action.account action.name st action.data
    | l => .error (.assertStructCount l.length)

/-- Hex nibble value of a character (0 for non-hex input, as a total
model of unhexlify on well-formed block ids). -/
def hexNibble (c : Char) : Nat :=
  if '0' ≤ c ∧ c ≤ '9' then c.toNat - 48
  else if 'a' ≤ c ∧ c ≤ 'f' then c.toNat - 87
  else if 'A' ≤ c ∧ c ≤ 'F' then c.toNat - 55
  else 0

/-- Bytes of a hex string (pairs of nibbles; a trailing odd nibble is
dropped). -/
def hexToBytes : List Char → List Nat
  | c1 :: c2 :: rest => (hexNibble c1 * 16 + hexNibble c2) :: hexToBytes rest
  | _ => []

/-- Modelled from the spec: `get_tapos_info` (protocol module, not in
src/).  The first 4 bytes of the 32-byte block id are the big-endian
block number; `ref_block_num` is its low 16 bits and `ref_block_prefix`
is the little-endian 4-byte word at byte offset 8 (spec 4.4: a specific
4-byte little-endian word at a fixed offset within the block id). -/
def get_tapos_info (blockId : String) : Nat × Nat :=
  let bs := hexToBytes blockId.data
  let blockNum := bs.getD 0 0 * 2 ^ 24 + bs.getD 1 0 * 2 ^ 16 +
    bs.getD 2 0 * 2 ^ 8 + bs.getD 3 0
  let pfx := bs.getD 8 0 + bs.getD 9 0 * 2 ^ 8 +
    bs.getD 10 0 * 2 ^ 16 + bs.getD 11 0 * 2 ^ 24
  (blockNum % 2 ^ 16, pfx)

/-- Modelled from the spec: `get_expiration(now, delta)` (protocol
module, not in src/): current time plus a configurable delay at the
protocol timestamp precision (spec 4.4).  The textual timestamp format is
owned by the protocol module; it is modelled as the decimal rendering of
the millisecond epoch value of `now + delta`. -/
def get_expiration (nowMs : Nat) (deltaSecs : Nat) : String :=
  toString (nowMs + 1000 * deltaSecs)

/-- The transaction envelope dict.  The source dict key
`ref_block_prefix` is named `refBlockPrefix` here. -/
structure Tx where
  expiration : String
  ref_block_num : Nat
  refBlockPrefix : Nat
  max_net_usage_words : Nat
  max_cpu_usage_ms : Nat
  delay_sec : Nat
  context_free_actions : List JValue
  actions : List PyAction
  transaction_extensions : List JValue
  context_free_data : List JValue
deriving Repr

/-- Embeds the transaction dict construction of both submission loops
(cleos.py lines 1060-1081 and 173-194): the initial dict carries
delay_sec 0, the cpu limit and the packed copy of the actions; the
`tx.update` then sets the expiration, the TAPOS fields, the resource
limits, delay_sec 0 again, and the three trailing empty lists. -/
def mkTx (expiration : String) (packedActions : List PyAction)
    (maxNet maxCpu rbn rbp : Nat) : Tx :=
  { expiration := expiration
    ref_block_num := rbn
    refBlockPrefix := rbp
    max_net_usage_words := maxNet
    max_cpu_usage_ms := maxCpu
    delay_sec := 0
    context_free_actions := []
    actions := packedActions
    transaction_extensions := []
    context_free_data := [] }

/-- Embeds the per-action packing loop
`tx['actions'][i]['data'] = self._pack_abi_data(action)`
(cleos.py lines 1067-1068 and 180-181) on the value level: each action of
the (copied) list has its data field replaced by the packed hex string,
in order; the first failure aborts the whole call. -/
def packActions (abis : Registry) : List PyAction → Except PackErr (List PyAction)
  | [] => .ok []
  | a :: rest =>
    match pack_abi_data abis a with
    | .error e => .error e
    | .ok h =>
      match packActions abis rest with
      | .error e => .error e
      | .ok pas => .ok ({ a with data := .jstr h } :: pas)

/-- The `CannonicalSignatureError` raised by `sign_tx` (source spelling). -/
inductive SignErr where
  | cannonicalSignature
deriving Repr, DecidableEq

/-- A node response: a JSON object; the loops only test key membership of
`'error'`. -/
abbrev Response := List (String × JValue)

/-- `'error' in res`. -/
def hasError (r : Response) : Bool := r.any (fun kv => kv.1 == "error")

/-- Modelled from the spec: serialization of one action for the packed
transaction (spec 4.5: account / name / authorization / packed data). -/
def packActionBytes (a : PyAction) : List Nat :=
  leBytes 8 ((nameValue a.account).getD 0) ++
  leBytes 8 ((nameValue a.name).getD 0) ++
  packVaruint a.authorization.length ++
  (a.authorization.map (fun au =>
    leBytes 8 ((nameValue au.actor).getD 0) ++
    leBytes 8 ((nameValue au.permission).getD 0))).flatten ++
  (match a.data with
   | .jstr h => (fun bs => packVaruint bs.length ++ bs) (hexToBytes h.data)
   | _ => [])

/-- Modelled from the spec: `DataStream.pack_transaction` (protocol
module, not in src/) serializes the envelope in declaration order: header
fields, then action count plus each action, then the trailing empty lists
(spec 4.5 / 4.2).  The expiration timestamp is consumed through the
decimal rendering produced by `get_expiration`. -/
def packTransaction (t : Tx) : List Nat :=
  leBytes 4 ((t.expiration.toNat?).getD 0 / 1000 % 2 ^ 32) ++
  leBytes 2 t.ref_block_num ++
  leBytes 4 t.refBlockPrefix ++
  packVaruint t.max_net_usage_words ++
  leBytes 1 t.max_cpu_usage_ms ++
  packVaruint t.delay_sec ++
  packVaruint t.context_free_actions.length ++
  packVaruint t.actions.length ++
  (t.actions.map packActionBytes).flatten ++
  packVaruint t.transaction_extensions.length ++
  packVaruint t.context_free_data.length

/-- The submission envelope posted to `push_transaction` (spec 6). -/
structure PushBody where
  signatures : List String
  compression : Nat
  packed_context_free_data : String
  packed_trx : String
deriving Repr, DecidableEq

/-- Modelled from the spec: `build_push_transaction_body` (protocol
module, not in src/), spec 6 submission envelope. -/
def build_push_transaction_body (sig : String) (packedTrx : String) :
    PushBody :=
  { signatures := [sig]
    compression := 0
    packed_context_free_data := ""
    packed_trx := packedTrx }

/-- `get_info` result, as consumed by the loops. -/
structure ChainInfo where
  chain_id : String
  last_irreversible_block_id : String
deriving Repr, DecidableEq

/-- External collaborators of the submission loops, indexed by loop
iteration `k`: the chain-info response, `datetime.utcnow()`, the
`sign_tx` outcome (an error is the `CannonicalSignatureError`), and the
node response to the POST. -/
structure LoopEnv where
  chainInfo : ChainInfo
  utcnowMs : Nat → Nat
  sign : Nat → Except SignErr String
  post : Nat → Response

/-- Observable external effects of a loop execution. -/
inductive Event where
  | getInfo
  | signCall (k : Nat)
  | postCall (k : Nat) (body : PushBody)
deriving Repr, DecidableEq

/-- Exceptions escaping `_create_and_push_tx`: a dispatcher failure
propagates out of the packing loop, a `CannonicalSignatureError`
propagates out of `sign_tx` (the synchronous loop has no try/except
around it). -/
inductive TxErr where
  | pack (e : PackErr)
  | sign (e : SignErr)
deriving Repr, DecidableEq

/-- Return value of `_create_and_push_tx`: either the unsigned
transaction dict (push=False) or the final `res` (which the source
returns even when it is None — the `ValueError('res is None')` on
line 1111 is constructed but never raised). -/
inductive SyncOutcome where
  | unsignedTx (t : Tx)
  | response (r : Option Response)
deriving Repr

/-- Embeds the `while retries > 0` loop of `CLEOS._create_and_push_tx`
(cleos.py lines 1057-1113).  Arguments after the environment mirror the
local state: remaining `retries`, last `res`, and the iteration counter
`k` feeding the per-iteration oracles.  Each iteration rebuilds the
transaction from a fresh deepcopy of the caller actions, re-packs them,
recomputes the expiration, returns the unsigned dict if push is False,
signs (an exception propagates), packs and posts; `retries` is
decremented after the post, an error response continues, any other
response breaks. -/
def syncLoop (env : LoopEnv) (abis : Registry) (actions : List PyAction)
    (maxCpu maxNet : Nat) (push : Bool) (rbn rbp : Nat) :
    Nat → Option Response → Nat → Except TxErr SyncOutcome × List Event
  | 0, res, _ => (.ok (.response res), [])
  | retries + 1, _res, k =>
    match packActions abis actions with
    | .error e => (.error (.pack e), [])
    | .ok pas =>
      let tx := mkTx (get_expiration (env.utcnowMs k) 900) pas
        maxNet maxCpu rbn rbp
      if push = false then (.ok (.unsignedTx tx), [])
      else
        match env.sign k with
        | .error e => (.error (.sign e), [.signCall k])
        | .ok sig =>
          let body := build_push_transaction_body sig
            (hexOfBytes (packTransaction tx))
          let res2 := env.post k
          if hasError res2 then
            let next := syncLoop env abis actions maxCpu maxNet push rbn rbp
              retries (some res2) (k + 1)
            (next.1, .signCall k :: .postCall k body :: next.2)
          else (.ok (.response (some res2)), [.signCall k, .postCall k body])

/-- Embeds `CLEOS._create_and_push_tx` (cleos.py lines 1039-1113):
`ref_block_num` and `ref_block_prefix` start at 0; the chain info is
fetched and the TAPOS fields derived only when push is True; then the
retry loop runs with a budget of 2. -/
def create_and_push_tx (env : LoopEnv) (abis : Registry)
    (actions : List PyAction) (maxCpu maxNet : Nat) (push : Bool) :
    Except TxErr SyncOutcome × List Event :=
  if push then
    let tp := get_tapos_info env.chainInfo.last_irreversible_block_id
    let r := syncLoop env abis actions maxCpu maxNet push tp.1 tp.2 2 none 0
    (r.1, .getInfo :: r.2)
  else
    syncLoop env abis actions maxCpu maxNet push 0 0 2 none 0

/-- Loop state of `CLEOS._a_create_and_push_tx` (cleos.py lines
170-227): last `res`, remaining `retries`, and the iteration counter `k`
feeding the per-iteration oracles. -/
structure AState where
  res : Option Response
  retries : Nat
  k : Nat
deriving Repr

/-- Status after some number of iterations of the async loop: still
looping, returned (`res`, possibly None — the dead
`ValueError('res is None')` on line 225 is constructed but never
raised), or an exception escaping from the packing step. -/
inductive AStatus where
  | running (s : AState)
  | done (res : Option Response)
  | failed (e : PackErr)
deriving Repr

/-- Embeds one iteration of the `while retries > 0` loop of
`CLEOS._a_create_and_push_tx` (cleos.py lines 172-222): when `retries`
is 0 the loop exits returning `res`; otherwise the actions are re-copied
and re-packed (a failure propagates), the transaction is rebuilt with a
fresh expiration, and `sign_tx` runs inside
`try ... except CannonicalSignatureError: continue` — on that error the
loop continues WITHOUT decrementing `retries` (the `retries -= 1` on
line 216 sits after the try block).  After a successful signature the
envelope is posted; `retries` is decremented; an error response
continues, any other response breaks. -/
def a_step (env : LoopEnv) (abis : Registry) (actions : List PyAction)
    (maxCpu maxNet rbn rbp : Nat) : AState → AStatus
  | ⟨res, retries, k⟩ =>
    if retries = 0 then .done res
    else
      match packActions abis actions with
      | .error e => .failed e
      | .ok pas =>
        let tx := mkTx (get_expiration (env.utcnowMs k) 900) pas
          maxNet maxCpu rbn rbp
        match env.sign k with
        | .error _ => .running ⟨res, retries, k + 1⟩
        | .ok sig =>
          let _body := build_push_transaction_body sig
            (hexOfBytes (packTransaction tx))
          let res2 := env.post k
          if hasError res2 then .running ⟨some res2, retries - 1, k + 1⟩
          else .done (some res2)

/-- `n` iterations of the async loop (absorbing once it leaves
`running`). -/
def a_run (env : LoopEnv) (abis : Registry) (actions : List PyAction)
    (maxCpu maxNet rbn rbp : Nat) : Nat → AState → AStatus
  | 0, s => .running s
  | n + 1, s =>
    match a_step env abis actions maxCpu maxNet rbn rbp s with
    | .running s2 => a_run env abis actions maxCpu maxNet rbn rbp n s2
    | out => out

/-- The initial loop state of `_a_create_and_push_tx`: `res = None`,
`retries = 3`. -/
def a_init : AState := ⟨none, 3, 0⟩

/-- Inhabitant used to model Python dict lookups on the action heap. -/
instance : Inhabited PyAction := ⟨⟨"", "", .jnull, []⟩⟩

/-- Action-object heap: models Python object identity for the aliasing
analysis of the packing step.  An address is an index into the store; the
caller passes a list of addresses. -/
abbrev Heap := List PyAction

/-- Embeds `deepcopy(actions)` (cleos.py lines 1063 and 176): fresh
objects (copies of the pointed-to actions) are appended to the store, and
the copy's address list points at them. -/
def deepcopyActions (h : Heap) (addrs : List Nat) : Heap × List Nat :=
  (h ++ addrs.map (fun a => h.getD a default),
   (List.range addrs.length).map (fun i => h.length + i))

/-- Embeds the in-place update
`tx['actions'][i]['data'] = self._pack_abi_data(action)`
(cleos.py lines 1067-1068 and 180-181) on the heap: mutates the store at
exactly the given addresses. -/
def packActionsInHeap (abis : Registry) (h : Heap) :
    List Nat → Except PackErr Heap
  | [] => .ok h
  | a :: rest =>
    let act := h.getD a default
    match pack_abi_data abis act with
    | .error e => .error e
    | .ok hex =>
      packActionsInHeap abis (h.set a { act with data := .jstr hex }) rest

/-- The complete package-transaction step of both submission loops on the
explicit store: deepcopy the caller actions, then replace the data field
of each copy by its packed hex. -/
def packageTxActions (abis : Registry) (h : Heap) (addrs : List Nat) :
    Except PackErr (Heap × List Nat) :=
  let dc := deepcopyActions h addrs
  match packActionsInHeap abis dc.1 dc.2 with
  | .error e => .error e
  | .ok h2 => .ok (h2, dc.2)

/-! Concrete fixtures used by witnesses and counterexamples. -/

/-- Registry with one ABI: struct `act` with two uint8 fields. -/
def twoFieldReg : Registry :=
  load_abi emptyRegistry "testacct"
    ⟨[⟨"act", [⟨"f1", "uint8"⟩, ⟨"f2", "uint8"⟩]⟩]⟩

/-- `act` called with fewer data values (1) than struct fields (2). -/
def actFewer : PyAction := ⟨"testacct", "act", .jarr [.jint 3], []⟩

/-- `act` called with more data values (3) than struct fields (2). -/
def actMore : PyAction :=
  ⟨"testacct", "act", .jarr [.jint 3, .jint 4, .jint 5], []⟩

/-- `act` called with exactly as many data values as struct fields. -/
def actExact : PyAction := ⟨"testacct", "act", .jarr [.jint 3, .jint 4], []⟩

/-- `actExact` after the packing step replaced its data. -/
def actExactPacked : PyAction := { actExact with data := .jstr "0304" }

/-- Registry whose struct declares a binary-extension (`$`) field type. -/
def dollarReg : Registry :=
  load_abi emptyRegistry "acct" ⟨[⟨"act", [⟨"f1", "uint8$"⟩]⟩]⟩

/-- The same struct with the bare field type. -/
def bareReg : Registry :=
  load_abi emptyRegistry "acct" ⟨[⟨"act", [⟨"f1", "uint8"⟩]⟩]⟩

/-- Action packed against `dollarReg` / `bareReg`. -/
def dollarAct : PyAction := ⟨"acct", "act", .jarr [.jint 3], []⟩

/-- Registry for the struct-resolution witness: account `m` has two
structs named `dup`, one named `uniq`, none named `nope`. -/
def multiReg : Registry :=
  load_abi emptyRegistry "m"
    ⟨[⟨"dup", [⟨"f1", "uint8"⟩]⟩, ⟨"dup", [⟨"f1", "uint16"⟩]⟩,
      ⟨"uniq", [⟨"f1", "uint8"⟩]⟩]⟩

/-- Action naming no struct of `multiReg`. -/
def actUnknown : PyAction := ⟨"m", "nope", .jarr [], []⟩

/-- Action naming the duplicated struct of `multiReg`. -/
def actDup : PyAction := ⟨"m", "dup", .jarr [.jint 1], []⟩

/-- Action naming the unique struct of `multiReg`. -/
def actUniq : PyAction := ⟨"m", "uniq", .jarr [.jint 1], []⟩

/-- Two distinct ABI values for the registry witness. -/
def abiX : Abi := ⟨[⟨"sa", []⟩]⟩

/-- See `abiX`. -/
def abiY : Abi := ⟨[⟨"sb", []⟩]⟩

/-- Environment whose signer raises `CannonicalSignatureError` on every
attempt. -/
def signFailEnv : LoopEnv :=
  { chainInfo := ⟨"cid",
      "00000004aabbccdd00112233445566778899aabbccddeeff0011223344556677"⟩
    utcnowMs := fun k => 1700000000000 + 100 * k
    sign := fun _ => .error .cannonicalSignature
    post := fun _ => [] }

/-- Environment whose signer always succeeds and whose node responds
with an error envelope on every attempt (distinct per attempt). -/
def allErrEnv : LoopEnv :=
  { chainInfo := ⟨"cid",
      "00000004aabbccdd00112233445566778899aabbccddeeff0011223344556677"⟩
    utcnowMs := fun k => 1700000000000 + 100 * k
    sign := fun k => .ok ("SIG" ++ toString k)
    post := fun k => [("error", .jint (k : Int))] }

/-- Caller heap holding two action objects at addresses 0 and 1. -/
def heap0 : Heap := [actExact, actFewer]

/-- `heap0` after packaging the action at address 0: the copy lives at
address 2 and only it was mutated. -/
def heap0Packed : Heap := [actExact, actFewer, actExactPacked]

/-! Theorems.  Each claim of the specification audit is settled by the
theorem named in its doc comment; witnesses instantiate the quantified
theorems on the concrete fixtures above. -/

/-- C2 (counterexample): a struct with 2 declared fields given a 1-value
data list does NOT fail: `_pack_abi_data` returns the partial encoding of
the first field (uint8 3, hex "03").  The loop runs `len(data)` times, so
missing trailing values are silently accepted. -/
theorem c2_fewer_values_succeeds :
    pack_abi_data twoFieldReg actFewer = .ok "03" := rfl

/-- C2 (amended): the field-count handling of `_pack_abi_data` is
asymmetric.  More data values than struct fields is a hard failure (the
field-key iterator is exhausted: `StopIteration`) and no encoding is
returned; fewer data values than struct fields is not an error — exactly
the first `len(data)` fields are packed and the partial encoding is
returned. -/
theorem c2_fieldcount_asymmetric :
    (∀ account name v vs buf,
      packLoop account name [] (v :: vs) buf = .error .stopIteration) ∧
    pack_abi_data twoFieldReg actMore = .error .stopIteration ∧
    pack_abi_data twoFieldReg actFewer = .ok "03" :=
  ⟨fun _ _ _ _ _ => rfl, rfl, rfl⟩

/-- C3: a field declared with a `$`-suffixed type is never packed as the
bare type: the `$` branch of `_pack_abi_data` (cleos.py line 136-137)
rewrites `pack_params` but leaves `fn_name` as the full suffixed string,
so `getattr(ds, 'pack_uint8$')` is looked up — no such method can exist
(Python identifiers cannot contain `$`) and the call raises
`AttributeError`.  The same value under the bare type packs to "03". -/
theorem c3_dollar_field_attribute_error :
    pack_abi_data dollarReg dollarAct =
      .error (.attributeError "pack_uint8$") ∧
    pack_abi_data bareReg dollarAct = .ok "03" :=
  ⟨rfl, rfl⟩

/-- C4: struct resolution in `_pack_abi_data`: with the account's ABI
loaded, an action name matching no struct fails (the
`assert len(struct) == 1` on a 0-length filter — the spec's
`UnknownAction`), a name matching two or more structs fails (the same
assert on a longer filter — the spec's `AmbiguousAction`), and a unique
match proceeds with exactly that struct. -/
theorem c4_struct_resolution (abis : Registry) (a : PyAction) (abi : Abi)
    (h : abis a.account = some abi) :
    (abi.structs.filter (fun s => s.name == a.name) = [] →
      pack_abi_data abis a = .error (.assertStructCount 0)) ∧
    (2 ≤ (abi.structs.filter (fun s => s.name == a.name)).length →
      pack_abi_data abis a =
        .error (.assertStructCount
          (abi.structs.filter (fun s => s.name == a.name)).length)) ∧
    (∀ st, abi.structs.filter (fun s => s.name == a.name) = [st] →
      pack_abi_data abis a = packWithStruct a.account a.name st a.data) := by
  have hred : pack_abi_data abis a =
      (match abi.structs.filter (fun s => s.name == a.name) with
       | [st] => packWithStruct a.account a.name st a.data
       | l => .error (.assertStructCount l.length)) := by
    unfold pack_abi_data get_loaded_abi
    rw [h]
  refine ⟨?_, ?_, ?_⟩
  · intro he; rw [hred, he]; rfl
  · intro hlen
    rcases hfil : abi.structs.filter (fun s => s.name == a.name) with
      _ | ⟨s1, _ | ⟨s2, rest⟩⟩
    · rw [hfil] at hlen; simp at hlen
    · rw [hfil] at hlen; simp at hlen
    · rw [hred, hfil]
  · intro st he; rw [hred, he]

/-- Witness for C4 on `multiReg`: unknown action name, duplicated name,
and unique name. -/
theorem c4_struct_resolution_witness :
    pack_abi_data multiReg actUnknown = .error (.assertStructCount 0) ∧
    pack_abi_data multiReg actDup = .error (.assertStructCount 2) ∧
    pack_abi_data multiReg actUniq =
      packWithStruct "m" "uniq" ⟨"uniq", [⟨"f1", "uint8"⟩]⟩
        (.jarr [.jint 1]) := by
  refine ⟨?_, ?_, ?_⟩
  · exact (c4_struct_resolution multiReg actUnknown _ rfl).1 (by decide)
  · have h := (c4_struct_resolution multiReg actDup _ rfl).2.1 (by decide)
    rw [h]; rfl
  · exact (c4_struct_resolution multiReg actUniq _ rfl).2.2 _ (by decide)

/-- C9: the ABI registry: after `load_abi a x`, `get_loaded_abi a`
returns `x`; a re-load with `y` overwrites; `get_loaded_abi` on an
account with no entry raises (`ValueError`, modelled `abiNotLoaded`);
and a load leaves every other account's entry unchanged. -/
theorem c9_registry_semantics (r : Registry) (a b : String) (x y : Abi) :
    get_loaded_abi (load_abi r a x) a = .ok x ∧
    get_loaded_abi (load_abi (load_abi r a x) a y) a = .ok y ∧
    (r b = none → get_loaded_abi r b = .error (.abiNotLoaded b)) ∧
    (b ≠ a → load_abi r a x b = r b) := by
  refine ⟨?_, ?_, ?_, ?_⟩
  · simp [get_loaded_abi, load_abi]
  · simp [get_loaded_abi, load_abi]
  · intro h; simp [get_loaded_abi, h]
  · intro h; simp [load_abi, h]

/-- C1: the `CannonicalSignatureError` handler of `_a_create_and_push_tx`
does route back to a fresh Encoding (the iteration counter feeding
`utcnow`/expiration advances each cycle), but the retry is NOT bounded:
the `continue` on line 201 sits before the `retries -= 1` on line 216, so
the budget never decreases on that path.  With a signer that raises on
every attempt, after any number `n` of Encoding→Signing cycles the loop
is still running with its full budget of 3 — it never stops. -/
theorem c1_async_sign_retry_unbounded :
    ∀ (n k : Nat) (res : Option Response),
      a_run signFailEnv twoFieldReg [actExact] 255 0 0 0 n ⟨res, 3, k⟩ =
        .running ⟨res, 3, k + n⟩ := by
  intro n
  induction n with
  | zero => intro k res; rfl
  | succ n ih =>
    intro k res
    have hstep : a_step signFailEnv twoFieldReg [actExact] 255 0 0 0
        ⟨res, 3, k⟩ = .running ⟨res, 3, k + 1⟩ := rfl
    have hone : a_run signFailEnv twoFieldReg [actExact] 255 0 0 0 (n + 1)
        ⟨res, 3, k⟩ =
        a_run signFailEnv twoFieldReg [actExact] 255 0 0 0 n ⟨res, 3, k + 1⟩ := by
      show (match a_step signFailEnv twoFieldReg [actExact] 255 0 0 0
              ⟨res, 3, k⟩ with
            | .running s2 =>
              a_run signFailEnv twoFieldReg [actExact] 255 0 0 0 n s2
            | out => out) = _
      rw [hstep]
    rw [hone, ih]
    have hk : k + 1 + n = k + (n + 1) := by omega
    rw [hk]

/-- C5: when every node response carries an 'error' field (and signing
succeeds), both loops exhaust their retry budget and return the LAST
observed error response — no synthesized exception replaces it (the
`ValueError('res is None')` statements are constructed but never
raised).  The synchronous loop (budget 2) returns the response of
attempt 1; the asynchronous loop (budget 3) is done after 4 steps with
the response of attempt 2. -/
theorem c5_returns_last_error_response (env : LoopEnv) (abis : Registry)
    (actions pas : List PyAction) (mc mn rbn rbp : Nat)
    (hpack : packActions abis actions = .ok pas)
    (hsign : ∀ k, ∃ s, env.sign k = .ok s)
    (herr : ∀ k, hasError (env.post k) = true) :
    (create_and_push_tx env abis actions mc mn true).1 =
      .ok (.response (some (env.post 1))) ∧
    a_run env abis actions mc mn rbn rbp 4 a_init =
      .done (some (env.post 2)) := by
  obtain ⟨s0, hs0⟩ := hsign 0
  obtain ⟨s1, hs1⟩ := hsign 1
  obtain ⟨s2, hs2⟩ := hsign 2
  constructor
  · simp [create_and_push_tx, syncLoop, hpack, hs0, hs1, herr 0, herr 1]
  · simp [a_run, a_step, a_init, hpack, hs0, hs1, hs2,
      herr 0, herr 1, herr 2]

/-- Witness for C5 on `allErrEnv` (per-attempt distinct error
responses). -/
theorem c5_returns_last_error_response_witness :
    (create_and_push_tx allErrEnv twoFieldReg [actExact] 255 0 true).1 =
      .ok (.response (some [("error", .jint 1)])) ∧
    a_run allErrEnv twoFieldReg [actExact] 255 0 0 0 4 a_init =
      .done (some [("error", .jint 2)]) :=
  c5_returns_last_error_response allErrEnv twoFieldReg [actExact]
    [actExactPacked] 255 0 0 0 rfl (fun k => ⟨"SIG" ++ toString k, rfl⟩)
    (fun _ => rfl)

/-- C6: a dispatcher failure while encoding any action's data surfaces
immediately out of `_create_and_push_tx`: the result is that error and
the only external event is the initial chain-info fetch — no signing, no
POST, no retry. -/
theorem c6_dispatcher_failure_fatal (env : LoopEnv) (abis : Registry)
    (actions : List PyAction) (mc mn : Nat) (e : PackErr)
    (hpack : packActions abis actions = .error e) :
    create_and_push_tx env abis actions mc mn true =
      (.error (.pack e), [.getInfo]) := by
  simp [create_and_push_tx, syncLoop, hpack]

/-- Witness for C6: an account with no loaded ABI makes the dispatcher
raise inside the first Encoding. -/
theorem c6_dispatcher_failure_fatal_witness :
    packActions emptyRegistry [actExact] =
      .error (.abiNotLoaded "testacct") ∧
    create_and_push_tx allErrEnv emptyRegistry [actExact] 255 0 true =
      (.error (.pack (.abiNotLoaded "testacct")), [.getInfo]) :=
  ⟨rfl, c6_dispatcher_failure_fatal allErrEnv emptyRegistry [actExact]
    255 0 _ rfl⟩

/-- Shape of a successful `packActions` run: the output list corresponds
index by index to the input, each element being the input action with its
data field replaced by its own packed hex. -/
theorem packActions_ok_spec (abis : Registry) :
    ∀ (actions pas : List PyAction), packActions abis actions = .ok pas →
      pas.length = actions.length ∧
      ∀ i, i < actions.length →
        ∃ a hex, actions[i]? = some a ∧ pack_abi_data abis a = .ok hex ∧
          pas[i]? = some { a with data := .jstr hex } := by
  intro actions
  induction actions with
  | nil =>
    intro pas h
    simp only [packActions] at h
    cases h
    exact ⟨rfl, fun i hi => absurd hi (by simp)⟩
  | cons a rest ih =>
    intro pas h
    rcases hpa : pack_abi_data abis a with e | hx
    · simp only [packActions, hpa] at h
      cases h
    · rcases hrest : packActions abis rest with e2 | prest
      · simp only [packActions, hpa, hrest] at h
        cases h
      · simp only [packActions, hpa, hrest] at h
        obtain ⟨hl, hg⟩ := ih prest hrest
        cases h
        refine ⟨by simp [hl], ?_⟩
        intro i hi
        match i with
        | 0 => exact ⟨a, hx, by simp, hpa, by simp⟩
        | i + 1 =>
          have hi2 : i < rest.length := by simpa using hi
          obtain ⟨b, hexb, h1, h2, h3⟩ := hg i hi2
          exact ⟨b, hexb, by simpa using h1, h2, by simpa using h3⟩

/-- C7: every transaction dict assembled by the loops has delay_sec 0 and
empty context_free_actions / transaction_extensions / context_free_data,
and its action list preserves the caller order element by element: the
i-th transaction action is the i-th caller action with only its data
field replaced by that same action's packed hex. -/
theorem c7_tx_shape (abis : Registry) (actions pas : List PyAction)
    (hpack : packActions abis actions = .ok pas)
    (exp : String) (mn mc rbn rbp : Nat) :
    (mkTx exp pas mn mc rbn rbp).delay_sec = 0 ∧
    (mkTx exp pas mn mc rbn rbp).context_free_actions = [] ∧
    (mkTx exp pas mn mc rbn rbp).transaction_extensions = [] ∧
    (mkTx exp pas mn mc rbn rbp).context_free_data = [] ∧
    (mkTx exp pas mn mc rbn rbp).actions.length = actions.length ∧
    (∀ i, i < actions.length →
      ∃ a hex, actions[i]? = some a ∧ pack_abi_data abis a = .ok hex ∧
        (mkTx exp pas mn mc rbn rbp).actions[i]? =
          some { a with data := .jstr hex }) :=
  have spec := packActions_ok_spec abis actions pas hpack
  ⟨rfl, rfl, rfl, rfl, spec.1, spec.2⟩

/-- Witness for C7 on the two-uint8-field fixture. -/
theorem c7_tx_shape_witness :
    packActions twoFieldReg [actExact] = .ok [actExactPacked] ∧
    ((mkTx "t0" [actExactPacked] 0 255 7 9).delay_sec = 0 ∧
     (mkTx "t0" [actExactPacked] 0 255 7 9).context_free_actions = [] ∧
     (mkTx "t0" [actExactPacked] 0 255 7 9).transaction_extensions = [] ∧
     (mkTx "t0" [actExactPacked] 0 255 7 9).context_free_data = [] ∧
     (mkTx "t0" [actExactPacked] 0 255 7 9).actions.length =
       [actExact].length ∧
     (∀ i, i < [actExact].length →
       ∃ a hex, [actExact][i]? = some a ∧
         pack_abi_data twoFieldReg a = .ok hex ∧
         (mkTx "t0" [actExactPacked] 0 255 7 9).actions[i]? =
           some { a with data := .jstr hex })) :=
  ⟨rfl, c7_tx_shape twoFieldReg [actExact] [actExactPacked] rfl "t0" 0 255 7 9⟩

/-- C8: with push=False, `_create_and_push_tx` performs no external
effect at all (no chain-info fetch, no signing, no POST — the event list
is empty) and returns the unsigned transaction whose TAPOS fields keep
their initializers `ref_block_num = 0` and `ref_block_prefix = 0`. -/
theorem c8_unpushed_mode (env : LoopEnv) (abis : Registry)
    (actions pas : List PyAction) (mc mn : Nat)
    (hpack : packActions abis actions = .ok pas) :
    create_and_push_tx env abis actions mc mn false =
      (.ok (.unsignedTx
        (mkTx (get_expiration (env.utcnowMs 0) 900) pas mn mc 0 0)), []) ∧
    (mkTx (get_expiration (env.utcnowMs 0) 900) pas mn mc 0 0).ref_block_num
      = 0 ∧
    (mkTx (get_expiration (env.utcnowMs 0) 900) pas mn mc 0 0).refBlockPrefix
      = 0 := by
  refine ⟨?_, rfl, rfl⟩
  simp [create_and_push_tx, syncLoop, hpack]

/-- Witness for C8 (the signer of the chosen environment would fail, but
it is never called). -/
theorem c8_unpushed_mode_witness :
    packActions twoFieldReg [actExact] = .ok [actExactPacked] ∧
    create_and_push_tx signFailEnv twoFieldReg [actExact] 255 0 false =
      (.ok (.unsignedTx (mkTx (get_expiration (signFailEnv.utcnowMs 0) 900)
        [actExactPacked] 0 255 0 0)), []) :=
  ⟨rfl, (c8_unpushed_mode signFailEnv twoFieldReg [actExact]
    [actExactPacked] 255 0 rfl).1⟩

/-- The heap packing step only writes at the addresses it is given. -/
theorem packActionsInHeap_frame (abis : Registry) :
    ∀ (addrs : List Nat) (h h2 : Heap),
      packActionsInHeap abis h addrs = .ok h2 →
      ∀ j, (∀ a ∈ addrs, a ≠ j) → h2[j]? = h[j]? := by
  intro addrs
  induction addrs with
  | nil =>
    intro h h2 hrun j _
    simp only [packActionsInHeap] at hrun
    cases hrun
    rfl
  | cons a rest ih =>
    intro h h2 hrun j hne
    rcases hpk : pack_abi_data abis (h.getD a default) with e | hex
    · simp only [packActionsInHeap, hpk] at hrun
      cases hrun
    · simp only [packActionsInHeap, hpk] at hrun
      have hstep := ih _ _ hrun j
        (fun b hb => hne b (List.mem_cons_of_mem _ hb))
      rw [hstep]
      exact List.getElem?_set_ne (hne a (List.mem_cons_self a rest))

/-- C10: the package-transaction step of both loops never mutates the
caller's action objects: `deepcopy` allocates the copies at fresh
addresses and the hex replacement writes only there, so every address
that existed before the call still holds its original object
afterwards. -/
theorem c10_caller_objects_preserved (abis : Registry) (h : Heap)
    (addrs : List Nat) (h2 : Heap) (fresh : List Nat)
    (hrun : packageTxActions abis h addrs = .ok (h2, fresh)) :
    ∀ j, j < h.length → h2[j]? = h[j]? := by
  intro j hj
  rcases hph : packActionsInHeap abis
      (h ++ addrs.map (fun a => h.getD a default))
      ((List.range addrs.length).map (fun i => h.length + i)) with e | h3
  · simp only [packageTxActions, deepcopyActions, hph] at hrun
    cases hrun
  · simp only [packageTxActions, deepcopyActions, hph] at hrun
    obtain ⟨rfl, rfl⟩ : h3 = h2 ∧
        (List.range addrs.length).map (fun i => h.length + i) = fresh := by
      cases hrun; exact ⟨rfl, rfl⟩
    have hframe := packActionsInHeap_frame abis _ _ _ hph j ?_
    · rw [hframe]
      exact List.getElem?_append_left hj
    · intro b hb
      simp only [List.mem_map, List.mem_range] at hb
      obtain ⟨i, _, rfl⟩ := hb
      omega

/-- Witness for C10: a two-object caller heap; packaging the action at
address 0 leaves both caller addresses untouched (the mutated copy lives
at address 2). -/
theorem c10_caller_objects_preserved_witness :
    packageTxActions twoFieldReg heap0 [0] = .ok (heap0Packed, [2]) ∧
    heap0Packed[0]? = heap0[0]? ∧ heap0Packed[1]? = heap0[1]? := by
  refine ⟨rfl, ?_, ?_⟩
  · exact c10_caller_objects_preserved twoFieldReg heap0 [0] heap0Packed [2]
      rfl 0 (by decide)
  · exact c10_caller_objects_preserved twoFieldReg heap0 [0] heap0Packed [2]
      rfl 1 (by decide)

/-- Witness for C9 on the empty registry and accounts "a" / "b". -/
theorem c9_registry_semantics_witness :
    get_loaded_abi (load_abi emptyRegistry "a" abiX) "a" = .ok abiX ∧
    get_loaded_abi (load_abi (load_abi emptyRegistry "a" abiX) "a" abiY) "a"
      = .ok abiY ∧
    get_loaded_abi emptyRegistry "b" = .error (.abiNotLoaded "b") ∧
    load_abi emptyRegistry "a" abiX "b" = none := by
  obtain ⟨h1, h2, h3, h4⟩ :=
    c9_registry_semantics emptyRegistry "a" "b" abiX abiY
  exact ⟨h1, h2, h3 rfl, (h4 (by decide)).trans rfl⟩

end PyLeap
